import Mathlib

/-!
Verification of the narrative session orchestrator (AI-teller).

Shallow embedding of the game's core components, translated from the
TypeScript sources:
  - dice engine               (src/lib/dice-engine.ts, `getDiceOutcome`)
  - phase function            (src/lib/types.ts, `getGamePhase`, `GAME_CONFIG`)
  - goal progress calculator  (src/lib/goal-progress.ts, `calculateGoalProgress`,
                               `validateProgress`)
  - response parser           (src/lib/ai/parser.ts, `parseAIResponse`)
  - persistence               (src/lib/storage.ts, `saveGame`, `getGameById`)
  - session orchestrator      (src/store/game-store.ts, `makeChoice`,
                               `confirmContinue`, `debugSetGoalProgress`)

Modelling conventions: JavaScript numbers are embedded as `ℤ` where the
source only ever holds integers (die faces, difficulties, round counts) and
as `ℚ` where fractional values can flow in (percentages, multipliers, the
`Math.random()` draw, which is passed in as an explicit `rand` parameter).
`Math.round` is `⌊x + 1/2⌋`, which matches JavaScript's round-half-up
semantics on all reals.  Non-deterministic effects (`Date.now()`, generated
ids, the dice draw, the external text-generation service's response) are
passed as explicit parameters.  Strings are processed over `List Char`
(`String.data`) with structural recursion so that every definition is
executable.
-/

namespace AITeller

/-! ## Dice engine (src/lib/dice-engine.ts) -/

inductive DiceOutcome where
  | criticalFail
  | fail
  | success
  | perfect
  | criticalSuccess
deriving DecidableEq, Repr

/-- Translation of `getDiceOutcome(result, difficulty, dice1, dice2)`:
double six, then double one, then the bad-base-roll rule, then the
difference ladder. -/
def getDiceOutcome (result difficulty dice1 dice2 : ℤ) : DiceOutcome :=
  let difference := result - difficulty
  if dice1 = 6 ∧ dice2 = 6 then .criticalSuccess
  else if dice1 = 1 ∧ dice2 = 1 then .criticalFail
  else if dice1 + dice2 ≤ 5 ∧ difference < 0 then .criticalFail
  else if difference ≥ 6 then .criticalSuccess
  else if difference ≥ 4 then .perfect
  else if difference ≥ 0 then .success
  else if difference ≥ -5 then .fail
  else .criticalFail

/-- The numeric-difference ladder of the specification (rule 4 alone). -/
def ladderOutcome (diff : ℤ) : DiceOutcome :=
  if diff ≥ 6 then .criticalSuccess
  else if diff ≥ 4 then .perfect
  else if diff ≥ 0 then .success
  else if diff ≥ -5 then .fail
  else .criticalFail

/-- Reference definition written from the specification's wording: rules
checked in the exact order (1) double six, (2) double one, (3) bad base
roll, (4) the ladder, with `total = d1 + d2`. -/
def diceOutcomeSpec (d1 d2 difficulty : ℤ) : DiceOutcome :=
  if d1 = 6 ∧ d2 = 6 then .criticalSuccess
  else if d1 = 1 ∧ d2 = 1 then .criticalFail
  else if d1 + d2 ≤ 5 ∧ d1 + d2 - difficulty < 0 then .criticalFail
  else ladderOutcome (d1 + d2 - difficulty)

/-- The same cascade with rule 3 removed, used to state that a given input
never triggers the bad-base-roll rule. -/
def diceOutcomeNoRule3 (d1 d2 difficulty : ℤ) : DiceOutcome :=
  if d1 = 6 ∧ d2 = 6 then .criticalSuccess
  else if d1 = 1 ∧ d2 = 1 then .criticalFail
  else ladderOutcome (d1 + d2 - difficulty)

/-! ## Phase function (src/lib/types.ts) -/

inductive GamePhase where
  | opening
  | goalSelection
  | development
  | climax
  | ending
deriving DecidableEq, Repr

structure GameConfig where
  defaultMaxRounds : ℤ
  openingRounds : ℤ
  goalSelectionRound : ℤ
  climaxRoundsBeforeEnd : ℤ
deriving DecidableEq, Repr

/-- Translation of `GAME_CONFIG` (word-count strings omitted). -/
def GAME_CONFIG : GameConfig := ⟨6, 2, 3, 2⟩

/-- Translation of `getGamePhase(roundNumber, maxRounds)`. -/
def getGamePhase (roundNumber maxRounds : ℤ) : GamePhase :=
  if roundNumber ≤ GAME_CONFIG.openingRounds then .opening
  else if roundNumber = GAME_CONFIG.goalSelectionRound then .goalSelection
  else if roundNumber ≥ maxRounds then .ending
  else if roundNumber ≥ maxRounds - GAME_CONFIG.climaxRoundsBeforeEnd + 1 then .climax
  else .development

/-- Reference definition written from the specification's wording, with the
constants `openingRounds = 2`, `goalSelectionRound = 3`, `climaxLookback = 2`
inlined, rules evaluated in the stated order. -/
def phaseSpec (round maxRounds : ℤ) : GamePhase :=
  if round ≤ 2 then .opening
  else if round = 3 then .goalSelection
  else if round ≥ maxRounds then .ending
  else if round ≥ maxRounds - 2 + 1 then .climax
  else .development

/-! ## Goal progress calculator (src/lib/goal-progress.ts) -/

structure Choice where
  text : String
  difficulty : Option ℤ
  isGoal : Option Bool
deriving DecidableEq, Repr

structure DiceRoll where
  dice1 : ℤ
  dice2 : ℤ
  total : ℤ
  difficulty : ℤ
  outcome : DiceOutcome
deriving DecidableEq, Repr

structure GoalProgress where
  percentage : ℚ
  reason : Option String
deriving DecidableEq, Repr

structure DifficultySetting where
  lo : ℤ
  hi : ℤ
  name : String
deriving DecidableEq, Repr

/-- The `difficultySettings` table of `calculateGoalProgress`. -/
def difficultySettings (d : ℤ) : Option DifficultySetting :=
  if d = 6 then some ⟨5, 10, "简单"⟩
  else if d = 8 then some ⟨10, 15, "普通"⟩
  else if d = 9 then some ⟨12, 20, "困难"⟩
  else if d = 10 then some ⟨15, 25, "困难"⟩
  else if d = 11 then some ⟨20, 30, "极难"⟩
  else if d = 12 then some ⟨25, 35, "极难"⟩
  else none

/-- JavaScript `Math.round`: round half toward positive infinity. -/
def jsRound (q : ℚ) : ℤ := ⌊q + 1/2⌋

/-- Translation of `calculateGoalProgress(choice, diceRoll, currentProgress)`.
The `Math.random()` draw is the explicit parameter `rand`.  The dead
`diceRoll.bonus` clause of the reason construction is omitted: the
`DiceRoll` type has no `bonus` field, so in the source that condition reads
`undefined > 0`, which is always false. -/
def calculateGoalProgress (choice : Choice) (diceRoll : Option DiceRoll)
    (currentProgress : ℚ) (rand : ℚ) : GoalProgress :=
  let difficulty : ℤ := match choice.difficulty with
    | some d => if d = 0 then 8 else d
    | none => 8
  let settings := (difficultySettings difficulty).getD ⟨10, 15, "普通"⟩
  let baseProgress : ℚ := (settings.lo : ℚ) + rand * ((settings.hi : ℚ) - (settings.lo : ℚ))
  let multiplier : ℚ := match diceRoll with
    | some roll => match roll.outcome with
      | .criticalSuccess => 3/2
      | .perfect => 6/5
      | .success => 1
      | .fail => 0
      | .criticalFail => -1/10
    | none => 0
  let outcomeName : String := match diceRoll with
    | some roll => match roll.outcome with
      | .criticalSuccess => "大成功"
      | .perfect => "完美成功"
      | .success => "成功"
      | .fail => "失败"
      | .criticalFail => "大失败"
    | none => ""
  let rounded : ℤ := jsRound (baseProgress * multiplier)
  let progressChange : ℤ :=
    if diceRoll.map DiceRoll.outcome = some DiceOutcome.criticalFail then -10 else rounded
  let newProgress : ℚ := max 0 (min 100 (currentProgress + ((max 0 progressChange : ℤ) : ℚ)))
  let reason : String := match diceRoll with
    | some _ =>
      if progressChange > 0 then
        outcomeName ++ "！" ++ settings.name ++ "难度检定成功，进度 +" ++
          toString progressChange ++ "%"
      else if progressChange = 0 then
        outcomeName ++ "，" ++ settings.name ++ "难度检定失败，进度无变化"
      else
        outcomeName ++ "！目标进度倒退 " ++ toString progressChange.natAbs ++ "%"
    | none => "序章阶段，暂无进度变化"
  ⟨newProgress, some reason⟩

/-- A progress figure as delivered by the external service, before
validation: either not an object at all, or an object whose `percentage`
field may be absent or non-numeric. -/
inductive SvcVal where
  | nonObject (raw : String)
  | objVal (percentage : Option ℚ) (reason : Option String)
deriving DecidableEq, Repr

/-- Translation of `validateProgress(progress)`: the figure must be an
object carrying a numeric `percentage` within `[0, 100]`.  (In the source a
falsy payload short-circuits before `validateProgress` runs; it yields the
same null outcome, so both rejection routes collapse to `false` here.) -/
def validateProgress : SvcVal → Bool
  | .nonObject _ => false
  | .objVal none _ => false
  | .objVal (some q) _ => decide (0 ≤ q) && decide (q ≤ 100)

/-! ## Response parser (src/lib/ai/parser.ts)

String algorithms are carried out over `List Char` (`String.data`) with
structural recursion, mirroring the JavaScript string operations:
`split('\n')`, `trim()`, `join('\n')` and the two anchored regular
expressions of the heuristic stage. -/

structure Goal where
  id : String
  description : String
deriving DecidableEq, Repr

inductive ChoiceVal where
  | strChoice (s : String)
  | objChoice (c : Choice)
deriving DecidableEq, Repr

inductive EndingType where
  | success
  | partSuccess
  | failure
  | timeout
deriving DecidableEq, Repr

structure Ending where
  type : EndingType
  title : String
  description : String
  conditions : List String
deriving DecidableEq, Repr

structure GenerateStoryResponse where
  content : String
  choices : List ChoiceVal
  goalOptions : Option (List Goal)
  goalProgress : Option GoalProgress
  ending : Option Ending
deriving DecidableEq, Repr

/-- A raw provider payload, reduced to the three content routes that
`extractContent` probes: `choices[0].message.content`,
`output.choices[0].message.content` and `result`. -/
structure RawAIResponse where
  choicesMessageContent : Option String
  outputChoicesMessageContent : Option String
  result : Option String
deriving DecidableEq, Repr

/-- JavaScript truthiness for an optional string: present and non-empty. -/
def jsTruthyStr : Option String → Option String
  | some s => if s = "" then none else some s
  | none => none

/-- Translation of `extractContent(response)`; `none` models the thrown
`No content found` error. -/
def extractContent (r : RawAIResponse) : Option String :=
  (jsTruthyStr r.choicesMessageContent).orElse fun _ =>
    (jsTruthyStr r.outputChoicesMessageContent).orElse fun _ =>
      jsTruthyStr r.result

/-- Split a character list at every occurrence of `sep` (JavaScript
`String.prototype.split` with a single-character separator). -/
def splitCharAux (sep : Char) : List Char → List Char → List (List Char)
  | [], acc => [acc.reverse]
  | c :: cs, acc =>
    if c = sep then acc.reverse :: splitCharAux sep cs []
    else splitCharAux sep cs (c :: acc)

def splitChar (sep : Char) (cs : List Char) : List (List Char) :=
  splitCharAux sep cs []

/-- JavaScript `String.prototype.trim` over a character list. -/
def trimChars (cs : List Char) : List Char :=
  ((cs.dropWhile Char.isWhitespace).reverse.dropWhile Char.isWhitespace).reverse

/-- The non-blank lines of the raw content: `split('\n')` filtered by
truthiness of `line.trim()`. -/
def nonBlankLines (s : String) : List (List Char) :=
  (splitChar '\n' s.data).filter (fun l => !(trimChars l).isEmpty)

/-- JavaScript `Array.prototype.join('\n')`. -/
def joinLines : List (List Char) → List Char
  | [] => []
  | [l] => l
  | l :: ls => l ++ '\n' :: joinLines ls

/-- Helper for the `\d+\.` alternative: after at least one digit, skip
further digits and require a dot. -/
def afterDigitsDot : List Char → Bool
  | [] => false
  | c :: cs => if c.isDigit then afterDigitsDot cs else decide (c = '.')

/-- Matches the anchored `\d+\.` pattern: one or more digits then a dot. -/
def startsNumDot : List Char → Bool
  | [] => false
  | c :: cs => c.isDigit && afterDigitsDot cs

/-- Case-insensitive anchored match of `pat` (given in lower case). -/
def ciStartsWith (pat cs : List Char) : Bool :=
  decide (((cs.take pat.length).map Char.toLower) = pat)

/-- The filter regular expression of the heuristic stage:
`/^(\d+\.|选择|选项|Choice)/i`. -/
def matchesChoiceLine (cs : List Char) : Bool :=
  startsNumDot cs || ciStartsWith ("选择".data) cs || ciStartsWith ("选项".data) cs ||
    ciStartsWith ("choice".data) cs

/-- Drop the `\d+\.` mark (called on lines where it matched). -/
def dropDigitsDot : List Char → List Char
  | [] => []
  | c :: cs => if c.isDigit then dropDigitsDot cs else if c = '.' then cs else c :: cs

/-- The replace regular expression of the heuristic stage:
`line.replace(/^(\d+\.|选择|选项|Choice[:：]\s*)/i, '')`; when no
alternative matches at the start the line is left unchanged. -/
def stripChoiceMark (cs : List Char) : List Char :=
  if startsNumDot cs then dropDigitsDot cs
  else if ciStartsWith ("选择".data) cs then cs.drop 2
  else if ciStartsWith ("选项".data) cs then cs.drop 2
  else if ciStartsWith ("choice".data) cs then
    match cs.drop 6 with
    | c :: rest => if c = ':' ∨ c = '：' then rest.dropWhile Char.isWhitespace else cs
    | [] => cs
  else cs

/-- The three generic filler choices of the heuristic stage. -/
def fallbackChoices : List String := ["继续探索", "仔细观察", "另辟蹊径"]

/-- Translation of the heuristic fallback (parser.ts lines 105-132): split
into non-blank lines, take up to 3 enumerated-item lines as choices when at
least 2 match (otherwise the generic fillers), and join the first 10 lines
as content. -/
def parseFallback (rawContent : String) : GenerateStoryResponse :=
  let lines := nonBlankLines rawContent
  let choiceLines := lines.filter matchesChoiceLine
  let choices : List String :=
    if 2 ≤ choiceLines.length then
      ((choiceLines.map (fun l => trimChars (stripChoiceMark l))).take 3).map
        (fun l => String.mk l)
    else fallbackChoices
  ⟨String.mk (joinLines (lines.take 10)),
    (choices.take 3).map ChoiceVal.strChoice,
    none, none, none⟩

/-- The last-resort response (parser.ts lines 140-143). -/
def hardFallback : GenerateStoryResponse :=
  ⟨"故事生成出现问题，请重新尝试。",
    [ChoiceVal.strChoice ("重新开始"), ChoiceVal.strChoice ("寻求帮助"),
      ChoiceVal.strChoice ("稍后再试")],
    none, none, none⟩

/-- Removes each literal occurrence of the opening code fence together with
the whitespace run that follows it (the `/```json\s*[\r\n]*/g` replace).
The fuel argument, instantiated with the list length, makes the recursion
structural; every step consumes at least one character. -/
def removeFenceOpenAux : Nat → List Char → List Char
  | 0, cs => cs
  | _ + 1, [] => []
  | fuel + 1, c :: cs =>
    if ("```json".data).isPrefixOf (c :: cs) then
      removeFenceOpenAux fuel (((c :: cs).drop 7).dropWhile Char.isWhitespace)
    else c :: removeFenceOpenAux fuel cs

/-- Removes a trailing code fence followed only by whitespace (the
`/```\s*$/g` replace). -/
def removeFenceClose (cs : List Char) : List Char :=
  let revNoWs := cs.reverse.dropWhile Char.isWhitespace
  if ("```".data).reverse.isPrefixOf revNoWs then (revNoWs.drop 3).reverse else cs

/-- Index of the last occurrence of `c` (JavaScript `lastIndexOf`). -/
def lastIdxOf (c : Char) (cs : List Char) : Option Nat :=
  (cs.reverse.findIdx? (fun x => x = c)).map (fun i => cs.length - 1 - i)

/-- Translation of `extractJSON(text)`: strip code fences, then cut the span
from the first opening brace to the last closing brace; `none` models
the thrown `No valid JSON found` error. -/
def extractJSON (text : String) : Option String :=
  let t := removeFenceClose (removeFenceOpenAux text.data.length text.data)
  match t.findIdx? (fun x => x = '{'), lastIdxOf '}' t with
  | some jsonStart, some jsonEnd =>
    if jsonStart < jsonEnd then some (String.mk ((t.take (jsonEnd + 1)).drop jsonStart))
    else none
  | _, _ => none

/-- Normalization of a validated response (parser.ts lines 89-92): any
structured element forces every element to structured form; when no element
is structured the map is the identity (the `String(choice)` branch is dead
because the list then contains only strings). -/
def normalizeChoices (v : GenerateStoryResponse) : GenerateStoryResponse :=
  if v.choices.any (fun c => match c with | .objChoice _ => true | .strChoice _ => false) then
    ⟨v.content,
      v.choices.map (fun c => match c with
        | .strChoice s => ChoiceVal.objChoice ⟨s, none, none⟩
        | x => x),
      v.goalOptions, v.goalProgress, v.ending⟩
  else v

/-- Translation of `parseAIResponse(response)`.  The `JSON.parse` plus Zod
schema validation stage is abstracted as the `decode` parameter (a failing
decode models both a parse exception and a schema rejection); everything
else follows the source's staged control flow: a failure anywhere in the
strict stage falls into the catch, which re-extracts the content and runs
the heuristic stage, and only a payload with no extractable content at all
reaches the last-resort response. -/
def parseAIResponse (decode : String → Option GenerateStoryResponse)
    (response : RawAIResponse) : GenerateStoryResponse :=
  match extractContent response with
  | none => hardFallback
  | some rawContent =>
    match (extractJSON rawContent).bind decode with
    | some validated => normalizeChoices validated
    | none => parseFallback rawContent

/-! ## Session data model (src/lib/types.ts) -/

structure Character where
  id : String
  name : String
  description : String
  createdAt : Nat
deriving DecidableEq, Repr

structure StoryNode where
  id : String
  content : String
  choices : List ChoiceVal
  userChoice : Option String
  diceRoll : Option DiceRoll
  timestamp : Nat
  goalOptions : Option (List Goal)
deriving DecidableEq, Repr

structure GameGoal where
  goal : Goal
  selectedAt : Nat
  progress : GoalProgress
  completedAt : Option Nat
deriving DecidableEq, Repr

structure GameState where
  id : String
  genre : String
  character : Character
  storyNodes : List StoryNode
  currentNodeIndex : Nat
  createdAt : Nat
  updatedAt : Nat
  goal : Option GameGoal
  ending : Option Ending
  maxRounds : Nat
deriving DecidableEq, Repr

/-! ## Persistence (src/lib/storage.ts)

The browser's `localStorage` slot under `ai-teller-games` is modelled as
the list of stored `GameState`s; `Date.now()` is the explicit `now`. -/

/-- Translation of `saveGame(game)`: replace the first entry with the same
id (stamping `updatedAt`), otherwise append the game unchanged. -/
def saveGame (games : List GameState) (game : GameState) (now : Nat) : List GameState :=
  match games.findIdx? (fun g => g.id == game.id) with
  | some i => games.set i { game with updatedAt := now }
  | none => games ++ [game]

/-- Translation of `getAllGames()`: the stored list sorted by `updatedAt`
descending (JavaScript's sort is stable, as is `mergeSort`). -/
def getAllGames (games : List GameState) : List GameState :=
  games.mergeSort (fun a b => b.updatedAt ≤ a.updatedAt)

/-- Translation of `getGameById(gameId)`. -/
def getGameById (games : List GameState) (gameId : String) : Option GameState :=
  (getAllGames games).find? (fun g => g.id == gameId)

/-! ## Session orchestrator (src/store/game-store.ts)

The Zustand store state is the `Store` structure (the debugging field
`lastAIResponse` is omitted: it only feeds logging and the round-3
goal-matching heuristic, which is outside the modelled flow).  Effects are
explicit parameters: `now` for `Date.now()`, `nodeId` for the generated
node id, `roll` for the dice draw, and `svc` for the JSON body returned by
the `/api/generate` route. -/

structure Store where
  currentGame : Option GameState
  isLoading : Bool
  error : Option String
  currentDiceRoll : Option DiceRoll
  isRollingDice : Bool
  pendingNode : Option StoryNode
deriving DecidableEq, Repr

/-- The player's submitted choice: `makeChoice(choice: string | Choice)`. -/
inductive ChoiceInput where
  | str (s : String)
  | obj (c : Choice)
deriving DecidableEq, Repr

/-- The JSON body of a `/api/generate` response as destructured by
`makeChoice`: `content`, `choices`, `goalOptions`, `goalProgress`,
`ending`.  The progress figure is kept raw (`SvcVal`) because `makeChoice`
validates it itself. -/
structure ServiceResp where
  content : String
  choices : List ChoiceVal
  goalOptions : Option (List Goal)
  goalProgress : Option SvcVal
  ending : Option Ending
deriving DecidableEq, Repr

/-- Outcome of one `makeChoice` run: no active game, the max-rounds branch
that dispatches ending generation, the catch handler (a thrown validation
error or the `choiceObj` ReferenceError), or a committed turn.  The flag on
`committed` records whether `checkEnding` was invoked before returning. -/
inductive MakeChoiceResult where
  | noGame (st : Store)
  | endingRequested (st : Store)
  | failed (st : Store)
  | committed (st : Store) (endingCheckNow : Bool)
deriving DecidableEq, Repr

/-- Field access on a validated service progress figure (the spread
spread of the goal's progress with the figure copies its `percentage` and, when
present, its `reason`).  The non-object shapes are unreachable behind
`validateProgress`. -/
def svcToProgress : SvcVal → GoalProgress
  | .objVal (some q) r => ⟨q, r⟩
  | .objVal none r => ⟨0, r⟩
  | .nonObject _ => ⟨0, none⟩

/-- Lines 638-651 of `makeChoice`: merge a validated progress figure into
the goal (a `reason` key is only overwritten when the figure carries one)
and stamp `completedAt` when the new percentage reaches 100 and the goal
was not already completed. -/
def applyValidatedProgress (gg : GameGoal) (p : GoalProgress) (now : Nat) : GameGoal :=
  let merged : GoalProgress :=
    ⟨p.percentage, match p.reason with | some r => some r | none => gg.progress.reason⟩
  let updatedGoal : GameGoal := ⟨gg.goal, gg.selectedAt, merged, gg.completedAt⟩
  if 100 ≤ p.percentage ∧ updatedGoal.completedAt = none then
    ⟨updatedGoal.goal, updatedGoal.selectedAt, updatedGoal.progress, some now⟩
  else updatedGoal

/-- Lines 675-733 of `makeChoice`: build the new story node from the
response, persist the current round's choice, and either park the node as
pending (a dice roll occurred; `currentDiceRoll` stays visible and
`checkEnding` is *not* run) or append it immediately and run `checkEnding`
(no dice roll). -/
def commitPhase (st : Store) (latestGame : GameState) (updatedNodes : List StoryNode)
    (svc : ServiceResp) (isGoalSelection : Bool) (diceRoll : Option DiceRoll)
    (now : Nat) (nodeId : String) : MakeChoiceResult :=
  let newNode : StoryNode :=
    ⟨nodeId, svc.content,
      if isGoalSelection then [] else svc.choices,
      none, none, now,
      if isGoalSelection then svc.goalOptions else none⟩
  let updatedGame :=
    { latestGame with storyNodes := updatedNodes, updatedAt := now }
  match diceRoll with
  | some _ =>
    .committed
      { st with
        currentGame := some updatedGame,
        isLoading := false,
        pendingNode := some newNode }
      false
  | none =>
    let finalGame :=
      { updatedGame with
        storyNodes := updatedGame.storyNodes ++ [newNode],
        currentNodeIndex := updatedGame.currentNodeIndex + 1,
        updatedAt := now }
    .committed
      { st with
        currentGame := some finalGame,
        isLoading := false,
        pendingNode := none,
        isRollingDice := false }
      true

/-- Translation of `makeChoice(choice)` (lines 405-755).  The fire-and-forget
`selectGoal` dispatch of the round-3 goal branch (line 449) is not modelled:
it races with the main flow and no verified claim concerns it.  Rounds 1-3
(the prologue, `currentRound <= goalSelectionRound`) roll no dice; later
rounds use the `roll` parameter.  The response validation errors and the
`choiceObj` ReferenceError of the fallback-progress branch (the source
references at line 621 a `const` that line 460 declares in a different
block, so reaching that branch throws) both land in the catch at line 734,
which records the message, stops loading and clears the dice roll. -/
def makeChoice (st : Store) (choice : ChoiceInput) (roll : DiceRoll)
    (svc : ServiceResp) (now : Nat) (nodeId : String) : MakeChoiceResult :=
  match st.currentGame with
  | none => .noGame { st with error := some ("No active game") }
  | some currentGame =>
    let choiceText := match choice with | .str s => s | .obj c => c.text
    let currentRound := currentGame.currentNodeIndex + 1
    let isProloguePhase : Bool := currentRound ≤ 3
    let diceRoll : Option DiceRoll := if isProloguePhase then none else some roll
    let st1 : Store :=
      if isProloguePhase then st
      else { st with currentDiceRoll := some roll, isRollingDice := false }
    let st2 : Store := { st1 with isLoading := true, error := none }
    let updatedNodes : List StoryNode :=
      match currentGame.storyNodes[currentGame.currentNodeIndex]? with
      | some cur =>
        currentGame.storyNodes.set currentGame.currentNodeIndex
          { cur with userChoice := some choiceText, diceRoll := diceRoll }
      | none => currentGame.storyNodes
    let nextRoundNumber := currentGame.currentNodeIndex + 2
    if currentGame.maxRounds < nextRoundNumber then
      let savedGame :=
        { currentGame with storyNodes := updatedNodes, updatedAt := now }
      .endingRequested { st2 with currentGame := some savedGame }
    else
      let isGoalSelection : Bool := nextRoundNumber == 3 && currentGame.goal.isNone
      if svc.content = "" then
        .failed
          { st2 with
            error := some ("API响应格式错误: 缺少剧情内容"),
            isLoading := false,
            currentDiceRoll := none }
      else if ¬ isGoalSelection ∧ svc.choices = [] then
        .failed
          { st2 with
            error := some ("API响应格式错误: 缺少选择项"),
            isLoading := false,
            currentDiceRoll := none }
      else if isGoalSelection ∧ svc.goalOptions.getD [] = [] then
        .failed
          { st2 with
            error := some ("第三轮必须提供目标选项"),
            isLoading := false,
            currentDiceRoll := none }
      else
        match currentGame.goal with
        | some gg =>
          let validated : Option GoalProgress :=
            match svc.goalProgress with
            | some v => if validateProgress v then some (svcToProgress v) else none
            | none => none
          match validated with
          | some p =>
            let g1 :=
              { currentGame with goal := some (applyValidatedProgress gg p now) }
            commitPhase st2 g1 updatedNodes svc isGoalSelection diceRoll now nodeId
          | none =>
            .failed
              { st2 with
                error := some ("choiceObj is not defined"),
                isLoading := false,
                currentDiceRoll := none }
        | none =>
          commitPhase st2 currentGame updatedNodes svc isGoalSelection diceRoll now nodeId

/-- Translation of `confirmContinue()` (lines 793-824): with a game and a
pending node, append the node, advance the index, clear the pending node
and the displayed dice roll, and only then invoke `checkEnding` (the
returned flag); otherwise do nothing. -/
def confirmContinue (st : Store) (now : Nat) : Store × Bool :=
  match st.currentGame, st.pendingNode with
  | some g, some p =>
    let updatedGame :=
      { g with
        storyNodes := g.storyNodes ++ [p],
        currentNodeIndex := g.currentNodeIndex + 1,
        updatedAt := now }
    ({ st with
       currentGame := some updatedGame,
       pendingNode := none,
       currentDiceRoll := none }, true)
  | _, _ => (st, false)

/-- Translation of `debugSetGoalProgress(percentage)` (lines 862-890): clamp
the percentage into `[0, 100]`, keep the existing reason, and stamp
`completedAt` when the *unclamped* argument reaches 100 and the goal was
not already completed. -/
def debugSetGoalProgress (st : Store) (percentage : ℚ) (now : Nat) : Store :=
  match st.currentGame with
  | none => st
  | some g =>
    match g.goal with
    | none => st
    | some gg =>
      let updatedGoal : GameGoal :=
        ⟨gg.goal, gg.selectedAt, ⟨max 0 (min 100 percentage), gg.progress.reason⟩,
          gg.completedAt⟩
      let updatedGoal : GameGoal :=
        if 100 ≤ percentage ∧ updatedGoal.completedAt = none then
          ⟨updatedGoal.goal, updatedGoal.selectedAt, updatedGoal.progress, some now⟩
        else updatedGoal
      { st with
        currentGame := some { g with goal := some updatedGoal, updatedAt := now } }

/-! ## Claims C1, C3, C5, C6 -/

/-- C1 (code bug): on a critical-fail the source sets
`progressChange = -10` and its own comment announces that a critical fail
subtracts 10%, but the commit line `current + Math.max(0, progressChange)` clamps the
change to 0, so the returned percentage is the unchanged current value
(here 50), not `max(0, current - 10) = 40` as the claim and the function's
own reason string ("目标进度倒退 10%") require. -/
theorem criticalFail_swallowed_by_guard :
    (calculateGoalProgress ⟨"尝试潜行", some 8, none⟩
        (some ⟨1, 2, 3, 8, DiceOutcome.criticalFail⟩) 50 0).percentage = 50 ∧
    (50 : ℚ) ≠ max 0 (50 - 10) := by
  constructor
  · show max 0 (min 100 (50 + ((max 0 (-10 : ℤ) : ℤ) : ℚ))) = 50
    norm_num
  · norm_num

/-- C3: the dice outcome function agrees with the specification's ordered
rules; moreover a total of at most 5 that meets the difficulty never
triggers the bad-base-roll rule (the result is that of the cascade with
rule 3 removed), and a total of at most 5 whose difference lies in
`[-5, -1]` resolves to critical-fail via rule 3 instead of the ladder's
fail. -/
theorem dice_outcome_matches_spec (d1 d2 difficulty : ℤ)
    (_h1 : 1 ≤ d1) (_h2 : d1 ≤ 6) (h3 : 1 ≤ d2) (h4 : d2 ≤ 6) :
    getDiceOutcome (d1 + d2) difficulty d1 d2 = diceOutcomeSpec d1 d2 difficulty ∧
    (d1 + d2 ≤ 5 → difficulty ≤ d1 + d2 →
      getDiceOutcome (d1 + d2) difficulty d1 d2 = diceOutcomeNoRule3 d1 d2 difficulty) ∧
    (d1 + d2 ≤ 5 → d1 + d2 - difficulty < 0 → -5 ≤ d1 + d2 - difficulty →
      getDiceOutcome (d1 + d2) difficulty d1 d2 = DiceOutcome.criticalFail) := by
  refine ⟨?_, ?_, ?_⟩
  · simp only [getDiceOutcome, diceOutcomeSpec, ladderOutcome]
  · intro ht hd
    simp only [getDiceOutcome, diceOutcomeNoRule3, ladderOutcome]
    split_ifs <;> first | rfl | omega
  · intro ht hd hd5
    simp only [getDiceOutcome]
    split_ifs <;> first | rfl | omega

/-- Witness for C3 at d1 = 2, d2 = 2, difficulty = 5. -/
theorem dice_outcome_matches_spec_witness :
    (1 : ℤ) ≤ 2 ∧ (2 : ℤ) ≤ 6 ∧
    (getDiceOutcome (2 + 2) 5 2 2 = diceOutcomeSpec 2 2 5 ∧
      ((2 : ℤ) + 2 ≤ 5 → (5 : ℤ) ≤ 2 + 2 →
        getDiceOutcome (2 + 2) 5 2 2 = diceOutcomeNoRule3 2 2 5) ∧
      ((2 : ℤ) + 2 ≤ 5 → (2 : ℤ) + 2 - 5 < 0 → (-5 : ℤ) ≤ 2 + 2 - 5 →
        getDiceOutcome (2 + 2) 5 2 2 = DiceOutcome.criticalFail)) :=
  ⟨by decide, by decide,
    dice_outcome_matches_spec 2 2 5 (by decide) (by decide) (by decide) (by decide)⟩

/-- C5 counterexample: with `maxRounds = 3` the final round is the
goal-selection round, not the ending, so `phase(maxRounds, maxRounds)` is
not `ending` as the claim states (round 3 lies in `[1, 3]`). -/
theorem phase_at_own_max_cex :
    getGamePhase 3 3 = GamePhase.goalSelection ∧ getGamePhase 3 3 ≠ GamePhase.ending := by
  decide

/-- C5 (amended): the phase function is total and deterministic, agreeing
with the specification's ordered cascade on every round in `[1, maxRounds]`;
`phase(maxRounds, maxRounds) = ending` holds whenever `maxRounds` exceeds
the goal-selection round (`maxRounds ≥ 4`), and with `maxRounds = 6` rounds
1-2 are opening, 3 is goal-selection, 4 is development, 5 is climax and 6 is
ending. -/
theorem phase_function_total :
    (∀ round maxRounds : ℤ, 1 ≤ round → round ≤ maxRounds →
      getGamePhase round maxRounds = phaseSpec round maxRounds) ∧
    (∀ maxRounds : ℤ, 4 ≤ maxRounds → getGamePhase maxRounds maxRounds = GamePhase.ending) ∧
    (getGamePhase 1 6 = GamePhase.opening ∧ getGamePhase 2 6 = GamePhase.opening ∧
      getGamePhase 3 6 = GamePhase.goalSelection ∧ getGamePhase 4 6 = GamePhase.development ∧
      getGamePhase 5 6 = GamePhase.climax ∧ getGamePhase 6 6 = GamePhase.ending) := by
  refine ⟨?_, ?_, by decide⟩
  · intro round maxRounds _h1 _h2
    simp only [getGamePhase, phaseSpec, GAME_CONFIG]
  · intro maxRounds h
    simp only [getGamePhase, GAME_CONFIG]
    split_ifs <;> first | rfl | omega

/-- Witness for C5 (amended) at round 5 of a 6-round game and at
`maxRounds = 6` for the ending conjunct. -/
theorem phase_function_total_witness :
    (1 : ℤ) ≤ 5 ∧ (5 : ℤ) ≤ 6 ∧ (4 : ℤ) ≤ 6 ∧
    getGamePhase 5 6 = phaseSpec 5 6 ∧ getGamePhase 6 6 = GamePhase.ending :=
  ⟨by decide, by decide, by decide,
    phase_function_total.1 5 6 (by decide) (by decide),
    phase_function_total.2.1 6 (by decide)⟩

/-- C6: for a current percentage within `[0, 100]`, any choice difficulty
and any dice outcome (or none), the computed percentage stays within
`[0, 100]`. -/
theorem goal_progress_in_range (choice : Choice) (diceRoll : Option DiceRoll)
    (currentProgress rand : ℚ)
    (_h0 : 0 ≤ currentProgress) (_h1 : currentProgress ≤ 100) :
    0 ≤ (calculateGoalProgress choice diceRoll currentProgress rand).percentage ∧
    (calculateGoalProgress choice diceRoll currentProgress rand).percentage ≤ 100 := by
  unfold calculateGoalProgress
  refine ⟨le_max_left _ _, ?_⟩
  exact max_le (by norm_num) (min_le_left _ _)

/-- Witness for C6 at difficulty 9, a perfect outcome and current
progress 50. -/
theorem goal_progress_in_range_witness :
    (0 : ℚ) ≤ 50 ∧ (50 : ℚ) ≤ 100 ∧
    (0 ≤ (calculateGoalProgress ⟨"攀爬", some 9, none⟩
        (some ⟨5, 6, 11, 9, DiceOutcome.perfect⟩) 50 (1/2)).percentage ∧
      (calculateGoalProgress ⟨"攀爬", some 9, none⟩
        (some ⟨5, 6, 11, 9, DiceOutcome.perfect⟩) 50 (1/2)).percentage ≤ 100) :=
  ⟨by decide, by decide,
    goal_progress_in_range ⟨"攀爬", some 9, none⟩
      (some ⟨5, 6, 11, 9, DiceOutcome.perfect⟩) 50 (1/2) (by decide) (by decide)⟩

/-- Helper: a member of the non-blank line list is itself non-empty. -/
theorem nonBlankLines_mem_ne_nil (s : String) (l : List Char)
    (h : l ∈ nonBlankLines s) : l ≠ [] := by
  intro hnil
  have := (List.mem_filter.mp h).2
  subst hnil
  simp [trimChars] at this

/-- Helper: joining a non-empty list of non-empty lines is non-empty. -/
theorem joinLines_ne_nil (ls : List (List Char)) (hne : ls ≠ [])
    (hmem : ∀ l ∈ ls, l ≠ []) : joinLines ls ≠ [] := by
  match ls with
  | [] => exact absurd rfl hne
  | [l] =>
    simpa [joinLines] using hmem l (by simp)
  | l :: l' :: ls' =>
    simp only [joinLines]
    intro h
    exact List.cons_ne_nil _ _ (List.append_eq_nil.mp h).2

/-- A fixed always-failing decode, used to exercise the fallback stages. -/
def cexDecode : String → Option GenerateStoryResponse := fun _ => none

/-- A payload whose extracted text is plain non-JSON garbage consisting of
exactly two enumerated-item lines. -/
def cexRawResp : RawAIResponse := ⟨some ("1. a\n2. b"), none, none⟩

/-- C4 counterexample: on a non-JSON payload with exactly two
enumerated-item lines the heuristic stage returns exactly those two choices,
so the validator does not return exactly 3 choices as the claim states. -/
theorem parse_two_choice_lines_cex :
    (parseAIResponse cexDecode cexRawResp).choices.length = 2 ∧
    (parseAIResponse cexDecode cexRawResp).choices.length ≠ 3 := by
  decide

/-- C4 (amended): on every payload whose extracted text yields no decodable
structured span, the validator never throws and returns the heuristic
fallback: its content is the first 10 non-blank lines of the text (non-empty
whenever the text has a non-blank line), and its choice list has exactly 3
entries unless at least 2 enumerated-item lines are detected, in which case
it has `min(#detected, 3)` entries (2 when exactly 2 are detected). -/
theorem parse_fallback_shape (decode : String → Option GenerateStoryResponse)
    (response : RawAIResponse) (t : String)
    (hc : extractContent response = some t)
    (hj : (extractJSON t).bind decode = none) :
    parseAIResponse decode response = parseFallback t ∧
    ((parseFallback t).choices.length =
      if 2 ≤ ((nonBlankLines t).filter matchesChoiceLine).length then
        min ((nonBlankLines t).filter matchesChoiceLine).length 3
      else 3) ∧
    (nonBlankLines t ≠ [] → (parseFallback t).content ≠ "") := by
  refine ⟨?_, ?_, ?_⟩
  · simp [parseAIResponse, hc, hj]
  · simp only [parseFallback]
    split_ifs with h
    · simp [List.length_take, List.length_map]
      omega
    · simp [fallbackChoices]
  · intro hne
    simp only [parseFallback]
    intro hcontent
    have hdata : joinLines ((nonBlankLines t).take 10) = [] := by
      have := congrArg String.data hcontent
      simpa using this
    have htake : (nonBlankLines t).take 10 ≠ [] := by
      simp only [ne_eq, List.take_eq_nil_iff]
      simp [hne]
    exact joinLines_ne_nil _ htake
      (fun l hl => nonBlankLines_mem_ne_nil t l (List.take_subset _ _ hl)) hdata

/-- Witness payload for the amended C4 theorem: garbage text with no
structured span and no enumerated-item lines. -/
def c4WitnessResp : RawAIResponse := ⟨some ("雾气弥漫的小巷"), none, none⟩

/-- Witness for C4 (amended) on plain garbage text. -/
theorem parse_fallback_shape_witness :
    extractContent c4WitnessResp = some ("雾气弥漫的小巷") ∧
    (extractJSON ("雾气弥漫的小巷")).bind cexDecode = none ∧
    (parseAIResponse cexDecode c4WitnessResp = parseFallback ("雾气弥漫的小巷") ∧
      ((parseFallback ("雾气弥漫的小巷")).choices.length =
        if 2 ≤ ((nonBlankLines ("雾气弥漫的小巷")).filter matchesChoiceLine).length then
          min ((nonBlankLines ("雾气弥漫的小巷")).filter matchesChoiceLine).length 3
        else 3) ∧
      (nonBlankLines ("雾气弥漫的小巷") ≠ [] →
        (parseFallback ("雾气弥漫的小巷")).content ≠ "")) :=
  ⟨by decide, by decide,
    parse_fallback_shape cexDecode c4WitnessResp ("雾气弥漫的小巷") (by decide) (by decide)⟩

/-- Helper: `find?` returns the unique element satisfying the predicate. -/
theorem find_eq_of_unique {α : Type} (l : List α) (p : α → Bool) (e : α)
    (hpe : p e = true) (hmem : e ∈ l) (huniq : ∀ x ∈ l, p x = true → x = e) :
    l.find? p = some e := by
  induction l with
  | nil => cases hmem
  | cons y ys ih =>
    by_cases hy : p y = true
    · have hye : y = e := huniq y (List.mem_cons_self y ys) hy
      rw [List.find?_cons_of_pos _ hy, hye]
    · rw [List.find?_cons_of_neg _ hy]
      have hne : e ≠ y := fun h => hy (h ▸ hpe)
      have hmem' : e ∈ ys := by
        rcases List.mem_cons.mp hmem with h | h
        · exact absurd h.symm (Ne.symm hne)
        · exact h
      exact ih hmem' (fun x hx hpx => huniq x (List.mem_cons_of_mem _ hx) hpx)

/-- C9: saving a session and loading it back by its id yields a session with
identical active round index, goal progress and round history (only the
`updatedAt` stamp may change), provided the stored sessions carry pairwise
distinct ids — the invariant `saveGame` itself maintains from an empty
store. -/
theorem save_load_roundtrip (games : List GameState) (game : GameState) (now : Nat)
    (hids : games.Pairwise (fun a b => a.id ≠ b.id)) :
    ∃ g, getGameById (saveGame games game now) game.id = some g ∧
      g.currentNodeIndex = game.currentNodeIndex ∧
      g.goal = game.goal ∧
      g.storyNodes = game.storyNodes := by
  rcases hsave : games.findIdx? (fun g => g.id == game.id) with _ | i
  · -- append branch: the entry is `game` itself
    have hnone : ∀ x ∈ games, (x.id == game.id) = false :=
      List.findIdx?_eq_none_iff.mp hsave
    have hsg : saveGame games game now = games ++ [game] := by
      simp [saveGame, hsave]
    refine ⟨game, ?_, rfl, rfl, rfl⟩
    unfold getGameById getAllGames
    apply find_eq_of_unique
    · simp
    · rw [List.mem_mergeSort, hsg]
      simp
    · intro x hx hpx
      rw [List.mem_mergeSort, hsg] at hx
      rcases List.mem_append.mp hx with h | h
      · exact absurd hpx (by simp [hnone x h])
      · simpa using h
  · -- update branch: the entry is `game` with a fresh `updatedAt`
    obtain ⟨hi, hfi⟩ := List.findIdx?_eq_some_iff_findIdx_eq.mp hsave
    have hpi : (games[i].id == game.id) = true := by
      have := @List.findIdx_getElem _ (fun g => g.id == game.id) games (hfi ▸ hi)
      simpa [hfi] using this
    have hidgi : games[i].id = game.id := by simpa using hpi
    have hsg : saveGame games game now =
        games.set i { game with updatedAt := now } := by
      simp [saveGame, hsave]
    have hlen : i < (games.set i { game with updatedAt := now }).length := by
      simpa using hi
    refine ⟨{ game with updatedAt := now }, ?_, rfl, rfl, rfl⟩
    unfold getGameById getAllGames
    apply find_eq_of_unique
    · simp
    · rw [List.mem_mergeSort, hsg, List.mem_iff_getElem]
      exact ⟨i, hlen, List.getElem_set_self hlen⟩
    · intro x hx hpx
      rw [List.mem_mergeSort, hsg, List.mem_iff_getElem] at hx
      obtain ⟨j, hj, hxj⟩ := hx
      by_cases hij : i = j
      · subst hij
        rw [List.getElem_set_self hj] at hxj
        exact hxj.symm
      · have hjlen : j < games.length := by simpa using hj
        have hxg : x = games[j] := by
          rw [← hxj, List.getElem_set_ne hij]
        have hxid : x.id = game.id := by simpa using hpx
        have hneq : games[j].id ≠ games[i].id := by
          rcases Nat.lt_or_ge j i with hlt | hge
          · exact (List.pairwise_iff_getElem.mp hids j i hjlen (hfi ▸ hi) hlt)
          · have hlt' : i < j := Nat.lt_of_le_of_ne hge hij
            exact (List.pairwise_iff_getElem.mp hids i j (hfi ▸ hi) hjlen hlt').symm
        exfalso
        apply hneq
        rw [← hxg, hxid, ← hidgi]

/-- A concrete session used by the C9 witness. -/
def w9Game : GameState :=
  ⟨"game-1", "wuxia", ⟨"c1", "侠客", "一名浪迹江湖的剑客", 0⟩,
    [⟨"node-1", "开场", [ChoiceVal.strChoice ("出发")], none, none, 0, none⟩],
    0, 0, 0, none, none, 6⟩

/-- Witness for C9: saving into an empty store and loading back. -/
theorem save_load_roundtrip_witness :
    ∃ g, getGameById (saveGame [] w9Game 7) w9Game.id = some g ∧
      g.currentNodeIndex = w9Game.currentNodeIndex ∧
      g.goal = w9Game.goal ∧
      g.storyNodes = w9Game.storyNodes :=
  save_load_roundtrip [] w9Game 7 List.Pairwise.nil

/-- Helper: recording the choice on the current round never changes the
number of stored rounds. -/
theorem choiceRecord_length (l : List StoryNode) (i : Nat)
    (txt : Option String) (dr : Option DiceRoll) :
    (match l[i]? with
      | some cur => l.set i { cur with userChoice := txt, diceRoll := dr }
      | none => l).length = l.length := by
  cases h : l[i]? <;> simp

/-- C2: a turn with a dice roll (any round after the prologue) commits in
two phases: `makeChoice` leaves the active index and the round-list length
unchanged, parks the new round as the pending node and does not run the
ending check; the subsequent `confirmContinue` appends exactly that node,
advances the index by one, clears the pending node and the dice roll, and
only then invokes the ending check.  A prologue turn (no dice roll) appends
and advances immediately, with the ending check run at once. -/
theorem pending_commit_protocol (st : Store) (g : GameState) (choice : ChoiceInput)
    (roll : DiceRoll) (svc : ServiceResp) (now : Nat) (nodeId : String)
    (st' : Store) (flag : Bool)
    (hg : st.currentGame = some g)
    (hmc : makeChoice st choice roll svc now nodeId = MakeChoiceResult.committed st' flag) :
    (3 < g.currentNodeIndex + 1 →
      ∃ g' n, st'.currentGame = some g' ∧ st'.pendingNode = some n ∧ flag = false ∧
        g'.currentNodeIndex = g.currentNodeIndex ∧
        g'.storyNodes.length = g.storyNodes.length ∧
        ∀ now2 : Nat,
          ∃ g'', (confirmContinue st' now2).1.currentGame = some g'' ∧
            g''.storyNodes = g'.storyNodes ++ [n] ∧
            g''.currentNodeIndex = g'.currentNodeIndex + 1 ∧
            (confirmContinue st' now2).1.pendingNode = none ∧
            (confirmContinue st' now2).1.currentDiceRoll = none ∧
            (confirmContinue st' now2).2 = true) ∧
    (g.currentNodeIndex + 1 ≤ 3 →
      ∃ g', st'.currentGame = some g' ∧ st'.pendingNode = none ∧ flag = true ∧
        g'.currentNodeIndex = g.currentNodeIndex + 1 ∧
        g'.storyNodes.length = g.storyNodes.length + 1) := by
  unfold makeChoice at hmc
  rw [hg] at hmc
  by_cases hph : g.currentNodeIndex + 1 ≤ 3
  · -- prologue turn: no dice, direct advancement
    refine ⟨fun hlt => absurd hph (by omega), fun _ => ?_⟩
    simp only [hph, decide_True, ite_true] at hmc
    split at hmc
    · exact absurd hmc (by simp)
    · split at hmc
      · exact absurd hmc (by simp)
      · split at hmc
        · exact absurd hmc (by simp)
        · split at hmc
          · exact absurd hmc (by simp)
          · split at hmc
            · split at hmc
              · unfold commitPhase at hmc
                simp only [MakeChoiceResult.committed.injEq] at hmc
                obtain ⟨hst, hfl⟩ := hmc
                subst hst
                subst hfl
                refine ⟨_, rfl, rfl, rfl, rfl, ?_⟩
                simp only [List.length_append, List.length_singleton]
                cases h : g.storyNodes[g.currentNodeIndex]? <;> simp [h]
              · exact absurd hmc (by simp)
            · unfold commitPhase at hmc
              simp only [MakeChoiceResult.committed.injEq] at hmc
              obtain ⟨hst, hfl⟩ := hmc
              subst hst
              subst hfl
              refine ⟨_, rfl, rfl, rfl, rfl, ?_⟩
              simp only [List.length_append, List.length_singleton]
              cases h : g.storyNodes[g.currentNodeIndex]? <;> simp [h]
  · -- dice turn: pending node, commit deferred to confirmContinue
    refine ⟨fun _ => ?_, fun hle => absurd hle hph⟩
    simp only [hph, decide_False, Bool.false_eq_true, ite_false] at hmc
    split at hmc
    · exact absurd hmc (by simp)
    · split at hmc
      · exact absurd hmc (by simp)
      · split at hmc
        · exact absurd hmc (by simp)
        · split at hmc
          · exact absurd hmc (by simp)
          · split at hmc
            · split at hmc
              · unfold commitPhase at hmc
                simp only [MakeChoiceResult.committed.injEq] at hmc
                obtain ⟨hst, hfl⟩ := hmc
                subst hst
                subst hfl
                refine ⟨_, _, rfl, rfl, rfl, rfl, ?_, ?_⟩
                · cases h : g.storyNodes[g.currentNodeIndex]? <;> simp [h]
                · intro now2
                  exact ⟨_, rfl, rfl, rfl, rfl, rfl, rfl⟩
              · exact absurd hmc (by simp)
            · unfold commitPhase at hmc
              simp only [MakeChoiceResult.committed.injEq] at hmc
              obtain ⟨hst, hfl⟩ := hmc
              subst hst
              subst hfl
              refine ⟨_, _, rfl, rfl, rfl, rfl, ?_, ?_⟩
              · cases h : g.storyNodes[g.currentNodeIndex]? <;> simp [h]
              · intro now2
                exact ⟨_, rfl, rfl, rfl, rfl, rfl, rfl⟩

/-- A bare prologue-style story node reused by the concrete sessions. -/
def plainNode : StoryNode := ⟨"n", "s", [], none, none, 0, none⟩

/-- Concrete witness data for C2: round 5 of a 6-round game, no goal. -/
def w2Roll : DiceRoll := ⟨3, 4, 7, 8, DiceOutcome.fail⟩

def w2Game : GameState :=
  ⟨"g", "wuxia", ⟨"c", "侠", "剑客", 0⟩, List.replicate 5 plainNode, 4, 0, 0, none, none, 6⟩

def w2St : Store := ⟨some w2Game, false, none, none, false, none⟩

def w2Svc : ServiceResp := ⟨"内容", [ChoiceVal.strChoice ("a")], none, none, none⟩

/-- The store `makeChoice` produces on the C2 witness input. -/
def w2StAfter : Store :=
  ⟨some ⟨"g", "wuxia", ⟨"c", "侠", "剑客", 0⟩,
      (List.replicate 5 plainNode).set 4 ⟨"n", "s", [], some ("c"), some w2Roll, 0, none⟩,
      4, 0, 9, none, none, 6⟩,
    false, none, some w2Roll, false,
    some ⟨"node-9", "内容", [ChoiceVal.strChoice ("a")], none, none, 9, none⟩⟩

/-- Witness for C2 on a concrete dice-roll turn. -/
theorem pending_commit_protocol_witness :
    w2St.currentGame = some w2Game ∧
    makeChoice w2St (ChoiceInput.str ("c")) w2Roll w2Svc 9 ("node-9") =
      MakeChoiceResult.committed w2StAfter false ∧
    ((3 < w2Game.currentNodeIndex + 1 →
      ∃ g' n, w2StAfter.currentGame = some g' ∧ w2StAfter.pendingNode = some n ∧
        false = false ∧
        g'.currentNodeIndex = w2Game.currentNodeIndex ∧
        g'.storyNodes.length = w2Game.storyNodes.length ∧
        ∀ now2 : Nat,
          ∃ g'', (confirmContinue w2StAfter now2).1.currentGame = some g'' ∧
            g''.storyNodes = g'.storyNodes ++ [n] ∧
            g''.currentNodeIndex = g'.currentNodeIndex + 1 ∧
            (confirmContinue w2StAfter now2).1.pendingNode = none ∧
            (confirmContinue w2StAfter now2).1.currentDiceRoll = none ∧
            (confirmContinue w2StAfter now2).2 = true) ∧
    (w2Game.currentNodeIndex + 1 ≤ 3 →
      ∃ g', w2StAfter.currentGame = some g' ∧ w2StAfter.pendingNode = none ∧
        false = true ∧
        g'.currentNodeIndex = w2Game.currentNodeIndex + 1 ∧
        g'.storyNodes.length = w2Game.storyNodes.length + 1)) :=
  ⟨rfl, by decide,
    pending_commit_protocol w2St w2Game (ChoiceInput.str ("c")) w2Roll w2Svc 9 ("node-9")
      w2StAfter false rfl (by decide)⟩

/-- Concrete data for C7: an active goal at 50% in round 5, a service
response without a progress figure. -/
def c7Goal : GameGoal := ⟨⟨"goal-1", "查明真相"⟩, 0, ⟨50, none⟩, none⟩

def c7Roll : DiceRoll := ⟨3, 4, 7, 9, DiceOutcome.fail⟩

def c7Game : GameState :=
  ⟨"g1", "urban-mystery", ⟨"c", "李明", "侦探", 0⟩, List.replicate 5 plainNode,
    4, 0, 0, some c7Goal, none, 8⟩

def c7St : Store := ⟨some c7Game, false, none, none, false, none⟩

def c7Svc : ServiceResp := ⟨"新的剧情", [ChoiceVal.strChoice ("继续")], none, none, none⟩

/-- The store the turn ends in: the catch handler's error state. -/
def c7StErr : Store := ⟨some c7Game, false, some ("choiceObj is not defined"), none, false, none⟩

/-- C7 (code bug): with a goal active and the service's progress figure
missing, the fallback branch dereferences `choiceObj`, a `const` that is
block-scoped to the dice-roll branch (source line 460) and out of scope at
line 621; the ReferenceError lands in the turn's catch, so the turn fails
with an error and no fallback progress is computed — the goal stays at 50%
and no round is committed, where the claim requires a successful turn with
`calculateGoalProgress` supplying the new percentage. -/
theorem missing_progress_fails_turn :
    makeChoice c7St (ChoiceInput.obj ⟨"潜入调查", some 9, none⟩) c7Roll c7Svc 9 ("node-9") =
      MakeChoiceResult.failed c7StErr ∧
    c7StErr.error = some ("choiceObj is not defined") ∧
    c7StErr.currentGame = some c7Game ∧
    c7Goal.progress.percentage = 50 := by
  decide

/-- Concrete data for C8: a goal completed at timestamp 5 (percentage 100),
then a turn whose service response carries a valid progress figure of 50. -/
def c8Goal : GameGoal := ⟨⟨"goal-2", "复仇"⟩, 0, ⟨100, none⟩, some 5⟩

def c8Game : GameState :=
  ⟨"g2", "wuxia", ⟨"c", "侠", "剑客", 0⟩, List.replicate 5 plainNode,
    4, 0, 0, some c8Goal, none, 8⟩

def c8St : Store := ⟨some c8Game, false, none, none, false, none⟩

def c8Svc : ServiceResp :=
  ⟨"剧情", [ChoiceVal.strChoice ("继续")], none, some (SvcVal.objVal (some 50) none), none⟩

/-- The goal after the update: percentage regressed to 50, completion
timestamp still set. -/
def c8GoalAfter : GameGoal := ⟨⟨"goal-2", "复仇"⟩, 0, ⟨50, none⟩, some 5⟩

/-- The session and store `makeChoice` produces on the C8 input. -/
def c8GameAfter : GameState :=
  ⟨"g2", "wuxia", ⟨"c", "侠", "剑客", 0⟩,
    (List.replicate 5 plainNode).set 4 ⟨"n", "s", [], some ("行动"), some w2Roll, 0, none⟩,
    4, 0, 9, some c8GoalAfter, none, 8⟩

def c8StAfter : Store :=
  ⟨some c8GameAfter, false, none, some w2Roll, false,
    some ⟨"node-9", "剧情", [ChoiceVal.strChoice ("继续")], none, none, 9, none⟩⟩

/-- C8 counterexample: a later valid service-provided figure below 100 is
applied as-is after completion, so the turn commits with the goal's
percentage at 50 while `completedAt` remains set — the invariant
`completedAt set ⇔ percentage ≥ 100` is violated by this mutating
operation. -/
theorem completed_goal_regression_cex :
    makeChoice c8St (ChoiceInput.obj ⟨"行动", some 9, none⟩) w2Roll c8Svc 9 ("node-9") =
      MakeChoiceResult.committed c8StAfter false ∧
    c8GoalAfter.completedAt = some 5 ∧
    c8GoalAfter.progress.percentage = 50 ∧
    ¬ (100 : ℚ) ≤ c8GoalAfter.progress.percentage := by
  decide

/-- C8 (amended): the two progress-mutating operations never clear
`completedAt` and always set it when the newly applied percentage reaches
100, so after each operation `percentage ≥ 100` implies `completedAt` set;
but the converse regression-freedom fails (see the counterexample): a valid
post-completion figure below 100 is applied unchanged. -/
theorem goal_completion_monotone :
    (∀ (gg : GameGoal) (p : GoalProgress) (now : Nat),
      ((applyValidatedProgress gg p now).completedAt = none → gg.completedAt = none) ∧
      ((applyValidatedProgress gg p now).progress.percentage = p.percentage) ∧
      (100 ≤ p.percentage → ((applyValidatedProgress gg p now).completedAt).isSome = true)) ∧
    (∀ (st : Store) (pct : ℚ) (now : Nat) (g : GameState) (gg gg' : GameGoal) (g' : GameState),
      st.currentGame = some g → g.goal = some gg →
      (debugSetGoalProgress st pct now).currentGame = some g' → g'.goal = some gg' →
      ((gg'.completedAt = none → gg.completedAt = none) ∧
        (100 ≤ gg'.progress.percentage → gg'.completedAt.isSome = true))) := by
  constructor
  · intro gg p now
    simp only [applyValidatedProgress]
    split_ifs with h
    · exact ⟨fun hc => by simp at hc, rfl, fun _ => rfl⟩
    · refine ⟨fun hc => hc, rfl, fun hp => ?_⟩
      rcases hn : gg.completedAt with _ | t
      · exact absurd ⟨hp, hn⟩ h
      · simp only [hn, Option.isSome_some]
  · intro st pct now g gg gg' g' hsg hgoal hsg' hgoal'
    simp only [debugSetGoalProgress, hsg, hgoal, Option.some.injEq] at hsg'
    subst hsg'
    simp only [Option.some.injEq] at hgoal'
    split at hgoal'
    case _ h =>
      subst hgoal'
      exact ⟨fun hc => by simp at hc, fun _ => rfl⟩
    case _ h =>
      subst hgoal'
      refine ⟨fun hc => hc, fun hp => ?_⟩
      rcases hn : gg.completedAt with _ | t
      · exfalso
        apply h
        have h1 : (100 : ℚ) ≤ max 0 (min 100 pct) := hp
        have h2 : (100 : ℚ) ≤ min 100 pct := by
          rcases le_max_iff.mp h1 with h' | h'
          · exact absurd h' (by norm_num)
          · exact h'
        exact ⟨(le_min_iff.mp h2).2, hn⟩
      · simp only [hn, Option.isSome_some]

/-- Witness goal and store for the amended C8 theorem. -/
def w8Goal : GameGoal := ⟨⟨"goal-3", "寻宝"⟩, 0, ⟨40, none⟩, none⟩

def w8Game : GameState :=
  ⟨"g3", "wuxia", ⟨"c", "侠", "剑客", 0⟩, [plainNode], 0, 0, 0, some w8Goal, none, 6⟩

def w8St : Store := ⟨some w8Game, false, none, none, false, none⟩

/-- Witness for C8 (amended) at a figure of 100 and a debug write of 100. -/
theorem goal_completion_monotone_witness :
    (((applyValidatedProgress w8Goal ⟨100, none⟩ 3).completedAt = none →
        w8Goal.completedAt = none) ∧
      ((applyValidatedProgress w8Goal ⟨100, none⟩ 3).progress.percentage = (100 : ℚ)) ∧
      ((100 : ℚ) ≤ 100 →
        ((applyValidatedProgress w8Goal ⟨100, none⟩ 3).completedAt).isSome = true)) ∧
    (w8St.currentGame = some w8Game ∧ w8Game.goal = some w8Goal ∧
      ∀ g' gg', (debugSetGoalProgress w8St 100 3).currentGame = some g' → g'.goal = some gg' →
        ((gg'.completedAt = none → w8Goal.completedAt = none) ∧
          (100 ≤ gg'.progress.percentage → gg'.completedAt.isSome = true))) :=
  ⟨goal_completion_monotone.1 w8Goal ⟨100, none⟩ 3,
    rfl, rfl,
    fun g' gg' h1 h2 =>
      goal_completion_monotone.2 w8St 100 3 w8Game w8Goal gg' g' rfl rfl h1 h2⟩

/-- C10: acknowledging with no pending node changes nothing, and a second
acknowledge immediately after any acknowledge is always a no-op, so the same
round can never be appended twice. -/
theorem confirm_without_pending_noop (st : Store) (now : Nat) :
    (st.pendingNode = none → confirmContinue st now = (st, false)) ∧
    (∀ now2 : Nat, confirmContinue (confirmContinue st now).1 now2 =
      ((confirmContinue st now).1, false)) := by
  constructor
  · intro hp
    unfold confirmContinue
    rw [hp]
    rcases st.currentGame with _ | g <;> rfl
  · intro now2
    rcases hg : st.currentGame with _ | g <;> rcases hp : st.pendingNode with _ | p <;>
      simp [confirmContinue, hg, hp]

/-- A store with no pending node, for the C10 witness. -/
def c10St : Store := ⟨some w2Game, false, none, none, false, none⟩

/-- Witness for C10 on a store without a pending node. -/
theorem confirm_without_pending_noop_witness :
    c10St.pendingNode = none ∧ confirmContinue c10St 3 = (c10St, false) :=
  ⟨rfl, (confirm_without_pending_noop c10St 3).1 rfl⟩

end AITeller
